import Mathlib

/-!
Shallow embedding of the gitfetch rendering core (src/gitfetch/display.py and
src/gitfetch/calculations.py) and proofs about its contribution-graph,
streak, layout and text-measurement behaviour.

Python strings are modelled as `List Char` (Lean chars are Unicode scalar
values, as in Python).  Python integers are modelled as `ℤ`; `float`
percentages are modelled as exact rationals `ℚ`.  Where the source indexes a
missing dict key with a default (`day.get('contributionCount', 0)`), the
model makes the default explicit.
-/

namespace Gitfetch

/-- Modelled from the spec (§3 data model): one day of the contribution
calendar.  `count` models `day.get('contributionCount', 0)` (a day record
with a missing count key is modelled by `count = 0`).  `date` models the
month of `datetime.fromisoformat(day.get('date')).month`; `none` models a
missing, empty, or unparseable date string, all of which the source skips
with `continue`. -/
structure ContribDay where
  date : Option Nat
  count : Int
deriving DecidableEq, Repr

/-- One week: the `week.get('contributionDays', [])` list (a week dict with a
missing key is modelled by the empty list). -/
abbrev Week := List ContribDay

/-! ## Text measurement (display.py `_strip_ansi`, `_display_width`)

`unicodedata` is an external stdlib collaborator (spec §4.1 contracts it);
its classification tables are modelled below on the ranges relevant to this
program: East-Asian Fullwidth/Wide characters get width 2, combining marks
width 0, everything else (including Ambiguous) width 1, exactly as in the
source's branch structure. -/

/-- Modelled from the spec (§4.1): combining marks (the main combining
diacritics block), for which `unicodedata.combining` is nonzero. -/
def isCombiningChar (c : Char) : Bool :=
  decide (0x300 ≤ c.toNat ∧ c.toNat ≤ 0x36F)

/-- Modelled from the spec (§4.1): characters whose
`unicodedata.east_asian_width` is `F` or `W` (CJK blocks, Hangul, fullwidth
forms, emoji).  Ambiguous-width characters such as `■`, `…`, `█`, `░`, `─`
are deliberately not in this set: the source gives them width 1. -/
def isWideChar (c : Char) : Bool :=
  decide ((0x1100 ≤ c.toNat ∧ c.toNat ≤ 0x115F) ∨
    (0x2E80 ≤ c.toNat ∧ c.toNat ≤ 0x303E) ∨
    (0x3041 ≤ c.toNat ∧ c.toNat ≤ 0x33FF) ∨
    (0x4E00 ≤ c.toNat ∧ c.toNat ≤ 0x9FFF) ∨
    (0xAC00 ≤ c.toNat ∧ c.toNat ≤ 0xD7A3) ∨
    (0xF900 ≤ c.toNat ∧ c.toNat ≤ 0xFAFF) ∨
    (0xFF00 ≤ c.toNat ∧ c.toNat ≤ 0xFF60) ∨
    (0xFFE0 ≤ c.toNat ∧ c.toNat ≤ 0xFFE6) ∨
    (0x1F300 ≤ c.toNat ∧ c.toNat ≤ 0x1FAFF) ∨
    c.toNat = 0x2B50)

/-- Per-character display width of `_display_width`: combining marks are
skipped (width 0), `F`/`W` characters count 2, ambiguous and everything else
count 1. -/
def charWidth (c : Char) : Nat :=
  if isCombiningChar c then 0
  else if isWideChar c then 2
  else 1

/-- Body of the SGR regex `\x1b\[[0-9;]*m` after the `\x1b[` prefix: consume
the maximal run of digits and semicolons; the next character must then be
`m`.  Returns the remaining input on a match. -/
def ansiBody : List Char → Option (List Char)
  | [] => none
  | c :: cs =>
    if c.isDigit ∨ c = ';' then ansiBody cs
    else if c = 'm' then some cs
    else none

/-- Fuelled scanner for `re.sub(r'\x1b\[[0-9;]*m', '', text)`: at each
position, either an SGR escape matches (and is dropped, resuming after it,
as `re.sub` resumes after a non-overlapping match) or the character is kept
and scanning resumes one position later.  The fuel only needs to cover the
input length since every step consumes at least one character. -/
def stripAnsiGo : Nat → List Char → List Char
  | 0, l => l
  | _, [] => []
  | fuel + 1, c :: cs =>
    if c = '\x1b' then
      match cs with
      | '[' :: rest =>
        match ansiBody rest with
        | some rest2 => stripAnsiGo fuel rest2
        | none => c :: stripAnsiGo fuel cs
      | _ => c :: stripAnsiGo fuel cs
    else c :: stripAnsiGo fuel cs

/-- Embedding of `_strip_ansi` (display.py): removes ANSI SGR escape
sequences.  The `if not text: return ''` guard is the identity on the model
(an empty list maps to an empty list). -/
def stripAnsi (text : List Char) : List Char :=
  stripAnsiGo text.length text

/-- Embedding of `_display_width` (display.py): strip escapes, then sum the
per-character widths. -/
def displayWidth (text : List Char) : Nat :=
  ((stripAnsi text).map charWidth).sum

/-! ## Colour resolver (display.py `_colorize`) -/

/-- Lookup in the literal `colors` dict of `_colorize`. -/
def colorCode (name : List Char) : Option (List Char) :=
  if name = "reset".toList then some "\x1b[0m".toList
  else if name = "bold".toList then some "\x1b[1m".toList
  else if name = "dim".toList then some "\x1b[2m".toList
  else if name = "red".toList then some "\x1b[91m".toList
  else if name = "green".toList then some "\x1b[92m".toList
  else if name = "yellow".toList then some "\x1b[93m".toList
  else if name = "blue".toList then some "\x1b[94m".toList
  else if name = "magenta".toList then some "\x1b[95m".toList
  else if name = "cyan".toList then some "\x1b[96m".toList
  else if name = "white".toList then some "\x1b[97m".toList
  else if name = "orange".toList then some "\x1b[38;2;255;165;0m".toList
  else if name = "accent".toList then some "\x1b[1m".toList
  else if name = "header".toList then some "\x1b[38;2;118;215;161m".toList
  else if name = "muted".toList then some "\x1b[2m".toList
  else none

/-- Embedding of `_colorize` (display.py): empty text is returned unchanged;
otherwise the colour name is lower-cased and looked up, and the text is
wrapped in the code and a reset exactly when colour is enabled and the name
is known. -/
def colorize (enableColor : Bool) (text : List Char) (color : List Char) :
    List Char :=
  if text = [] then text
  else
    match colorCode (color.map Char.toLower) with
    | none => text
    | some code =>
      if enableColor then code ++ text ++ "\x1b[0m".toList else text

/-! ## Truncation (display.py `_truncate_text`) -/

/-- Loop of `_truncate_text`: grow `truncated` one character at a time,
stopping (`break`) as soon as adding the next character plus the ellipsis
would exceed the budget. -/
def truncLoop (truncated : List Char) (maxWidth : Int) :
    List Char → List Char
  | [] => truncated
  | ch :: rest =>
    if (displayWidth (truncated ++ [ch] ++ ['…']) : Int) > maxWidth then
      truncated
    else truncLoop (truncated ++ [ch]) maxWidth rest

/-- Embedding of `_truncate_text` (display.py): text whose display width
fits the budget is returned unchanged, otherwise a prefix plus `…`. -/
def truncateText (text : List Char) (maxWidth : Int) : List Char :=
  if (displayWidth text : Int) ≤ maxWidth then text
  else truncLoop [] maxWidth text ++ ['…']

/-! ## Week-budget computation (display.py `_calculate_max_weeks`) -/

/-- Embedding of `_calculate_max_weeks` (display.py): each week costs 2
columns, 4 columns of margin are reserved, and the result is clamped to
[13, 52].  Python `//` is floor division, i.e. `Int.fdiv`. -/
def calculateMaxWeeks (widthAvailable : Int) : Int :=
  min 52 (max 13 ((widthAvailable - 4).fdiv 2))

/-! ## Streaks and totals (display.py `_calculate_streaks`,
calculations.py `calculate_current_streak`, `calculate_max_streak`,
`calculate_total_contributions`) -/

/-- Flatten of the nested loops
`for week in weeks: for day in week.get('contributionDays', [])`: all day
counts in chronological order. -/
def flattenCounts (weeks : List Week) : List Int :=
  weeks.flatMap (fun w => w.map (fun d => d.count))

/-- Loop body of `_calculate_streaks` (display.py).  State is
`(current_streak, max_streak, temp_streak)`: a positive count extends the
temp streak and overwrites `current_streak` with it; a non-positive count
folds the temp streak into `max_streak` and resets it. -/
def streaksStep (s : Int × Int × Int) (c : Int) : Int × Int × Int :=
  if c > 0 then (s.2.2 + 1, s.2.1, s.2.2 + 1)
  else (s.1, if s.2.2 > s.2.1 then s.2.2 else s.2.1, 0)

/-- Embedding of `_calculate_streaks` (display.py): flatten chronologically,
reverse to most-recent-first, run `streaksStep` over the whole list, then
fold the trailing temp streak into the maximum.  Returns
`(current_streak, max_streak)`. -/
def calculateStreaksDisplay (weeksData : List Week) : Int × Int :=
  if weeksData = [] then (0, 0)
  else
    let s := ((flattenCounts weeksData).reverse).foldl streaksStep (0, 0, 0)
    (s.1, if s.2.2 > s.2.1 then s.2.2 else s.2.1)

/-- Loop of `calculate_current_streak` (calculations.py): count positive
entries from the head and `break` at the first non-positive one. -/
def leadingPositiveRun : List Int → Int
  | [] => 0
  | c :: rest => if c > 0 then 1 + leadingPositiveRun rest else 0

/-- Embedding of `calculate_current_streak` (calculations.py): flatten
chronologically, reverse, count the leading run of positive counts,
stopping at the first zero.  (The `except` arm of the source cannot fire in
the model: the traversed data is well-typed by construction.) -/
def calculateCurrentStreak (contribGraph : List Week) : Int :=
  leadingPositiveRun ((flattenCounts contribGraph).reverse)

/-- Loop body of `calculate_max_streak` (calculations.py).  State is
`(max_streak, temp_streak)`. -/
def maxStreakStep (s : Int × Int) (c : Int) : Int × Int :=
  if c > 0 then (if s.2 + 1 > s.1 then s.2 + 1 else s.1, s.2 + 1)
  else (s.1, 0)

/-- Embedding of `calculate_max_streak` (calculations.py): track the longest
run of consecutive positive counts over the chronological (unreversed)
flattened list. -/
def calculateMaxStreak (contribGraph : List Week) : Int :=
  ((flattenCounts contribGraph).foldl maxStreakStep (0, 0)).1

/-- Embedding of `_calculate_total_contributions` (display.py) and
`calculate_total_contributions` (calculations.py): sum of all day counts. -/
def calculateTotalContributions (weeksData : List Week) : Int :=
  (flattenCounts weeksData).sum

/-! ## Intensity levels and glyph blocks (calculations.py
`get_contribution_color_level`, display.py `_get_contribution_block_spaced`,
`_build_legend_spaced`) -/

/-- Embedding of `get_contribution_color_level` (calculations.py): maps a
count to the one-character strings `'0'`..`'4'` with thresholds
0 / ≤2 / ≤5 / ≤9 / else. -/
def getContributionColorLevel (count : Int) : List Char :=
  if count = 0 then "0".toList
  else if count ≤ 2 then "1".toList
  else if count ≤ 5 then "2".toList
  else if count ≤ 9 then "3".toList
  else "4".toList

/-- Embedding of `_get_contribution_block_spaced` (display.py): without
colour every count renders as the two-character cell `"■ "`; with colour the
cell is wrapped in one of five truecolor codes chosen by the thresholds
`== 0` / `< 3` / `< 7` / `< 13` / else. -/
def getContributionBlockSpaced (enableColor : Bool) (count : Int) :
    List Char :=
  if ¬enableColor then "■ ".toList
  else
    let color :=
      if count = 0 then "\x1b[38;2;235;237;240m".toList
      else if count < 3 then "\x1b[38;2;155;233;168m".toList
      else if count < 7 then "\x1b[38;2;64;196;99m".toList
      else if count < 13 then "\x1b[38;2;48;161;78m".toList
      else "\x1b[38;2;33;110;57m".toList
    color ++ "■".toList ++ "\x1b[0m".toList ++ " ".toList

/-- Embedding of `_build_legend_spaced` (display.py): without colour, the
fixed line `"    Less ■ ■ ■ ■ ■ More"`; with colour, the five hard-coded
palette swatches. -/
def buildLegendSpaced (enableColor : Bool) : List Char :=
  if ¬enableColor then "    Less ■ ■ ■ ■ ■ More".toList
  else
    let blocksStr :=
      ["\x1b[38;2;235;237;240m".toList, "\x1b[38;2;155;233;168m".toList,
        "\x1b[38;2;64;196;99m".toList, "\x1b[38;2;48;161;78m".toList,
        "\x1b[38;2;33;110;57m".toList].flatMap
        (fun color => color ++ "■".toList ++ "\x1b[0m".toList ++ " ".toList)
    "    Less ".toList ++ blocksStr ++ "More".toList

/-! ## Month labels (display.py `_build_month_line_spaced`) -/

/-- Month abbreviations list `months` of `_build_month_line_spaced`, indexed
by `datetime.month` (1..12; the parser never produces anything else, so the
out-of-range arm is unreachable on parsed dates). -/
def monthAbbr : Nat → List Char
  | 1 => "Jan".toList
  | 2 => "Feb".toList
  | 3 => "Mar".toList
  | 4 => "Apr".toList
  | 5 => "May".toList
  | 6 => "Jun".toList
  | 7 => "Jul".toList
  | 8 => "Aug".toList
  | 9 => "Sep".toList
  | 10 => "Oct".toList
  | 11 => "Nov".toList
  | 12 => "Dec".toList
  | _ => []

/-- Body of one iteration of the `_build_month_line_spaced` loop at index
`idx`.  A week with no days or no parseable first-day date is skipped.  At
index 0 the abbreviation is appended unconditionally.  Otherwise the month is
compared with the first day of `weeks_data[idx - 1]` (passed in as
`prevOpt`, which is the previously traversed week whether or not it was
skipped); on a change, spacing is added so the line reaches
`(idx + 1) * 2 - len(abbr)` columns when it is shorter than that, and the
abbreviation is appended. -/
def monthStep (prevOpt : Option Week) (idx : Nat) (acc : List Char)
    (wk : Week) : List Char :=
  match wk.head? with
  | none => acc
  | some day0 =>
    match day0.date with
    | none => acc
    | some m =>
      if idx = 0 then acc ++ monthAbbr m
      else
        match prevOpt with
        | none => acc
        | some pw =>
          match pw.head? with
          | none => acc
          | some pday =>
            match pday.date with
            | none => acc
            | some pm =>
              if m ≠ pm then
                let target : Int := (idx + 1) * 2
                let needed : Int := target - acc.length
                let pad :=
                  if needed > 0 then
                    List.replicate (needed - (monthAbbr m).length).toNat ' '
                  else []
                acc ++ pad ++ monthAbbr m
              else acc

/-- Structural form of the `for idx, week in enumerate(weeks_data)` loop of
`_build_month_line_spaced`; `prevOpt` carries `weeks_data[idx - 1]`. -/
def monthFold (prevOpt : Option Week) (idx : Nat) (acc : List Char) :
    List Week → List Char
  | [] => acc
  | wk :: rest => monthFold (some wk) (idx + 1) (monthStep prevOpt idx acc wk) rest

/-- Embedding of `_build_month_line_spaced` (display.py): empty input gives
the empty string, otherwise the built label line behind a 4-column margin. -/
def buildMonthLineSpaced (weeksData : List Week) : List Char :=
  if weeksData = [] then []
  else "    ".toList ++ monthFold none 0 [] weeksData

/-! ## Achievements (display.py `_build_achievements`,
`_get_achievement_entries`) -/

/-- Entry record produced by `_get_achievement_entries`. -/
structure AchEntry where
  icon : List Char
  label : List Char
  value : List Char
deriving DecidableEq, Repr

/-- Helper `color_icon` of `_get_achievement_entries`. -/
def colorIcon (enableColor : Bool) (icon : List Char) (color : List Char) :
    List Char :=
  if ¬enableColor then icon else colorize enableColor icon color

/-- Value string `f"{n} day{'s' if n != 1 else ''}"`. -/
def pluralDays (n : Int) : List Char :=
  (toString n).toList ++ " day".toList ++ (if n ≠ 1 then "s".toList else [])

/-- Embedding of `_get_achievement_entries` (display.py): a current-streak
entry when positive, a best-streak entry when positive, and at most one
contribution-milestone entry chosen by the 10000/5000/1000/100 ladder. -/
def getAchievementEntries (c : Bool) (currentStreak maxStreak totalContribs : Int) :
    List AchEntry :=
  (if currentStreak > 0 then
    [⟨colorIcon c "🔥".toList "red".toList, "Current Streak".toList,
      pluralDays currentStreak⟩]
   else []) ++
  (if maxStreak > 0 then
    [⟨colorIcon c "⭐".toList "yellow".toList, "Best Streak".toList,
      pluralDays maxStreak⟩]
   else []) ++
  (if totalContribs ≥ 10000 then
    [⟨colorIcon c "💎".toList "magenta".toList, "Contributions".toList,
      "10k+".toList⟩]
   else if totalContribs ≥ 5000 then
    [⟨colorIcon c "👑".toList "yellow".toList, "Contributions".toList,
      "5k+".toList⟩]
   else if totalContribs ≥ 1000 then
    [⟨colorIcon c "🎖️".toList "cyan".toList, "Contributions".toList,
      "1k+".toList⟩]
   else if totalContribs ≥ 100 then
    [⟨colorIcon c "🏆".toList "yellow".toList, "Contributions".toList,
      "100+".toList⟩]
   else [])

/-- Embedding of `_build_achievements` (display.py): header pair plus one
line per entry, each icon+label padded to the widest icon+label (Python
`" " * max(0, w)` is the truncated subtraction on `ℕ`). -/
def buildAchievements (c : Bool) (weeksData : List Week) : List (List Char) :=
  if weeksData = [] then []
  else
    let streaks := calculateStreaksDisplay weeksData
    let totalContribs := calculateTotalContributions weeksData
    let entries := getAchievementEntries c streaks.1 streaks.2 totalContribs
    if entries = [] then []
    else
      let title := "ACHIEVEMENTS".toList
      let labelWidth :=
        (entries.map (fun e => displayWidth (e.icon ++ " ".toList ++ e.label))).foldl
          max 0
      [colorize c title "header".toList,
        colorize c (List.replicate title.length '─') "muted".toList] ++
      entries.map (fun e =>
        let iconLabel := e.icon ++ " ".toList ++ e.label
        iconLabel ++ List.replicate (labelWidth - displayWidth iconLabel) ' ' ++
          "  ".toList ++ e.value)

/-! ## Grid assembly (display.py `_get_recent_weeks`,
`_empty_graph_placeholder`, `_get_contribution_graph_lines`) -/

/-- Embedding of `_get_recent_weeks` (display.py): the Python slice
`weeks_data[-limit:]` when longer than `limit`, i.e. drop the oldest
excess. -/
def getRecentWeeks (weeksData : List Week) (limit : Nat) : List Week :=
  if weeksData.length > limit then weeksData.drop (weeksData.length - limit)
  else weeksData

/-- Embedding of `_empty_graph_placeholder` (display.py): the "no data" text
(muted when colour is on) behind the margin, followed by an empty line. -/
def emptyGraphPlaceholder (enableColor : Bool) : List (List Char) :=
  let message := "No contribution data yet".toList
  let text :=
    if enableColor then colorize enableColor message "muted".toList
    else message
  ["    ".toList ++ text, []]

/-- Embedding of `_graph_header` (display.py): intentionally no lines. -/
def graphHeader : List (List Char) := []

/-- Count of `days[idx] if idx < len(days) else {}` followed by
`.get('contributionCount', 0)`: a missing day contributes count 0. -/
def countAt (wk : Week) (idx : Nat) : Int :=
  match wk.get? idx with
  | some d => d.count
  | none => 0

/-- One weekday row of the grid: the margin followed by the joined blocks of
day `idx` of every displayed week. -/
def dayRowLine (enableColor : Bool) (displayWeeks : List Week) (idx : Nat) :
    List Char :=
  "    ".toList ++
    (displayWeeks.map (fun wk => getContributionBlockSpaced enableColor (countAt wk idx))).flatten

/-- Week-trimming step of `_get_contribution_graph_lines`: resolve the width
constraint (`None` means `terminal_width - 8`), compute the week budget, and
keep the most recent `max_weeks` weeks. -/
def displayWeeksFor (terminalWidth : Int) (widthConstraint : Option Int)
    (recentWeeks : List Week) : List Week :=
  let wc := widthConstraint.getD (terminalWidth - 8)
  let maxWeeks := calculateMaxWeeks wc
  if (recentWeeks.length : Int) > maxWeeks then
    recentWeeks.drop (recentWeeks.length - maxWeeks.toNat)
  else recentWeeks

/-- Truthiness of `month_line.strip()`: the line contains some
non-whitespace character. -/
def hasVisibleChar (line : List Char) : Bool :=
  line.any (fun ch =>
    ¬(ch = ' ' ∨ ch = '\t' ∨ ch = '\n' ∨ ch = '\x0b' ∨ ch = '\x0c' ∨ ch = '\r'))

/-- Embedding of `_get_contribution_graph_lines` (display.py): trim to 52
weeks; when nothing remains, header plus the placeholder block; otherwise
header, the month line when visibly nonempty, the 7 weekday rows, and — when
`include_sections` — the achievements block behind a blank separator.
(`total_contribs` is also computed by the source, but `_graph_header`
ignores it and returns no lines.) -/
def getContributionGraphLines (enableColor : Bool) (terminalWidth : Int)
    (weeksData : List Week) (widthConstraint : Option Int)
    (includeSections : Bool) : List (List Char) :=
  let recentWeeks := getRecentWeeks weeksData 52
  if recentWeeks = [] then graphHeader ++ emptyGraphPlaceholder enableColor
  else
    let displayWeeks := displayWeeksFor terminalWidth widthConstraint recentWeeks
    let monthLine := buildMonthLineSpaced displayWeeks
    let gridLines :=
      (List.range 7).map (fun idx => dayRowLine enableColor displayWeeks idx)
    let lines :=
      graphHeader ++ (if hasVisibleChar monthLine then [monthLine] else []) ++
        gridLines
    if includeSections then
      let ach := buildAchievements enableColor recentWeeks
      if ach ≠ [] then lines ++ [[]] ++ ach else lines
    else lines

/-! ## Language progress bars (display.py `_render_progress_bar_no_brackets`)

Python `float` percentages are modelled as exact rationals; `round` is
Python 3 rounding, which is round-half-to-even. -/

/-- Modelled from the spec (Python builtin `round` on a float, an external
operation): nearest integer, ties to even. -/
def pyRound (q : ℚ) : Int :=
  let f : Int := ⌊q⌋
  let r : ℚ := q - f
  if r < 1 / 2 then f
  else if 1 / 2 < r then f + 1
  else if f % 2 = 0 then f else f + 1

/-- Embedding of `_render_progress_bar_no_brackets` (display.py): clamp the
width to at least 1 and the percentage into [0, 100], fill
`round(pct / 100 * width)` cells (further clamped to the width), pad with
empty cells, and colour the filled segment green when colour is enabled and
the segment is nonempty. -/
def renderProgressBarNoBrackets (enableColor : Bool) (percentage : ℚ)
    (width : Int) : List Char :=
  let width := max width 1
  let capped : ℚ := max 0 (min percentage 100)
  let filled := min (pyRound (capped / 100 * width)) width
  let empty := width - filled
  let filledSeg := List.replicate filled.toNat '█'
  let emptySeg := List.replicate empty.toNat '░'
  let filledSeg :=
    if enableColor ∧ filledSeg ≠ [] then
      colorize enableColor filledSeg "green".toList
    else filledSeg
  filledSeg ++ emptySeg

/-! ## Side-by-side composition (display.py `_display_full`, lines 131-147)

The printing loop is modelled as a function from the two line blocks to the
combined lines. -/

/-- Maximum display width over the left block:
`max(...) if left_side else 0`.  Widths are naturals, so folding `max` from
0 agrees with Python `max` on a nonempty list. -/
def maxLineWidth (block : List (List Char)) : Nat :=
  (block.map displayWidth).foldl max 0

/-- Embedding of the side-by-side loop of `_display_full` (display.py): for
each row index up to the taller block, the left line (or `""`) is padded
with spaces to the left block's maximum display width, then the fixed
two-space gap, then the right line (or `""`). -/
def displayFullCombine (leftSide rightSide : List (List Char)) :
    List (List Char) :=
  let maxLeftWidth := if leftSide = [] then 0 else maxLineWidth leftSide
  (List.range (max leftSide.length rightSide.length)).map (fun i =>
    let leftRaw := leftSide.getD i []
    leftRaw ++ List.replicate (maxLeftWidth - displayWidth leftRaw) ' ' ++
      "  ".toList ++ rightSide.getD i [])

/-! ## Specification-side definitions used for comparison -/

/-- Modelled from the spec (§4.4 glyph mapping, §8 property 7): the claimed
intensity step function as a level digit, written from the spec's words:
count 0 → level 0, 1–2 → 1, 3–5 → 2, 6–9 → 3, 10 and above → 4. -/
def specIntensityLevel (count : Int) : List Char :=
  if count = 0 then "0".toList
  else if 1 ≤ count ∧ count ≤ 2 then "1".toList
  else if 3 ≤ count ∧ count ≤ 5 then "2".toList
  else if 6 ≤ count ∧ count ≤ 9 then "3".toList
  else "4".toList

/-! ## Concrete calendars used as inputs -/

/-- One week whose flattened chronological counts are `[5, 3, 0, 7, 4, 2]`
(the calendar of spec §8 property 4). -/
def exampleStreakWeeks : List Week :=
  [[⟨none, 5⟩, ⟨none, 3⟩, ⟨none, 0⟩, ⟨none, 7⟩, ⟨none, 4⟩, ⟨none, 2⟩]]

/-- A one-week calendar with three January days of counts 5, 0, 3. -/
def exampleSmallCalendar : List Week :=
  [[⟨some 1, 5⟩, ⟨some 1, 0⟩, ⟨some 1, 3⟩]]

/-- Four weeks whose first days fall in January, January, January and
February: a month boundary at kept-week index 3. -/
def exampleMonthWeeks : List Week :=
  [[⟨some 1, 0⟩], [⟨some 1, 0⟩], [⟨some 1, 0⟩], [⟨some 2, 0⟩]]

/-! ## C1: the current-streak computation -/

/-- C1 (code_bug evidence): on the calendar whose flattened chronological
counts are `[5, 3, 0, 7, 4, 2]`, the calculations-module
`calculate_current_streak` stops at the first zero of the reversed sequence
and returns 3, and `calculate_max_streak` returns 3, exactly as the claim
states — but the display-module `_calculate_streaks`, which feeds the
achievements section, keeps scanning past the first zero and returns a
current streak of 2 (the length of the chronologically oldest run),
contradicting the claim, the sibling module, and the repository's own test
`test_calculate_streaks_max_streak`, which asserts current == 3 on this very
input. -/
theorem c1_current_streak_example :
    calculateCurrentStreak exampleStreakWeeks = 3 ∧
    calculateMaxStreak exampleStreakWeeks = 3 ∧
    calculateStreaksDisplay exampleStreakWeeks = (2, 3) := by
  refine ⟨by decide, by decide, by decide⟩

/-! ## C2: the glyph intensity mapping -/

/-- C2 (counterexample): the claim puts count 6 at level 3 and count 3 at
level 2 — as `get_contribution_color_level` indeed does — yet the grid glyph
renderer `_get_contribution_block_spaced` colours count 6 identically to
count 3 and differently from count 9, so the grid does not use the claimed
step function. -/
theorem c2_grid_level_counterexample :
    getContributionColorLevel 6 = "3".toList ∧
    getContributionColorLevel 3 = "2".toList ∧
    getContributionBlockSpaced true 6 = getContributionBlockSpaced true 3 ∧
    getContributionBlockSpaced true 9 ≠ getContributionBlockSpaced true 6 := by
  refine ⟨by decide, by decide, by decide, by decide⟩

/-- C2 (amended): the claimed step function (0 → 0, 1–2 → 1, 3–5 → 2,
6–9 → 3, ≥10 → 4) is exactly what `get_contribution_color_level`
(calculations.py) implements for every non-negative count; the grid/legend
renderer in display.py instead uses the thresholds 0 / 1–2 / 3–6 / 7–12 /
13+. -/
theorem c2_color_level_amended (count : Int) (h : 0 ≤ count) :
    getContributionColorLevel count = specIntensityLevel count := by
  unfold getContributionColorLevel specIntensityLevel
  split_ifs <;> first | rfl | omega

/-- Witness for `c2_color_level_amended` at count 7. -/
theorem c2_color_level_amended_witness :
    (0 : Int) ≤ 7 ∧ getContributionColorLevel 7 = specIntensityLevel 7 :=
  ⟨by decide, c2_color_level_amended 7 (by decide)⟩

/-! ## C3: current streak never exceeds max streak -/

/-- Invariant of the `_calculate_streaks` loop: the recorded current streak
never exceeds the maximum of the recorded best streak and the running temp
streak. -/
theorem streaks_foldl_inv (l : List Int) :
    ∀ s : Int × Int × Int, s.1 ≤ max s.2.1 s.2.2 →
      (l.foldl streaksStep s).1 ≤
        max (l.foldl streaksStep s).2.1 (l.foldl streaksStep s).2.2 := by
  induction l with
  | nil => intro s h; simpa using h
  | cons c l ih =>
    intro s h
    rw [List.foldl_cons]
    refine ih _ ?_
    obtain ⟨cur, mx, tmp⟩ := s
    simp only [streaksStep]
    split_ifs <;> simp_all <;> omega

/-- C3: for every calendar, the current streak computed by
`_calculate_streaks` is at most the max streak it computes. -/
theorem c3_current_le_max (weeksData : List Week) :
    (calculateStreaksDisplay weeksData).1 ≤
      (calculateStreaksDisplay weeksData).2 := by
  simp only [calculateStreaksDisplay]
  split_ifs with h hgt
  · simp
  · exact (streaks_foldl_inv ((flattenCounts weeksData).reverse) (0, 0, 0)
      (by simp)).trans (sup_le hgt.le le_rfl)
  · dsimp only
    exact (streaks_foldl_inv ((flattenCounts weeksData).reverse) (0, 0, 0)
      (by simp)).trans (sup_le le_rfl (not_lt.mp hgt))

/-! ## C4: the week-budget clamp -/

/-- C4: for every integer width, `_calculate_max_weeks` returns exactly 13
when the width is at most 30, exactly 52 when the width is at least 200, and
always a value between 13 and 52. -/
theorem c4_max_weeks_clamped (w : Int) :
    (w ≤ 30 → calculateMaxWeeks w = 13) ∧
    (200 ≤ w → calculateMaxWeeks w = 52) ∧
    13 ≤ calculateMaxWeeks w ∧ calculateMaxWeeks w ≤ 52 := by
  unfold calculateMaxWeeks
  rw [Int.fdiv_eq_ediv _ (by norm_num)]
  omega

/-- Witness for `c4_max_weeks_clamped` at widths 30 and 200. -/
theorem c4_max_weeks_clamped_witness :
    calculateMaxWeeks 30 = 13 ∧ calculateMaxWeeks 200 = 52 :=
  ⟨(c4_max_weeks_clamped 30).1 (by decide),
    (c4_max_weeks_clamped 200).2.1 (by decide)⟩

/-! ## C5: the empty-calendar placeholder -/

/-- C5 (counterexample): on an empty calendar the grid builder emits the
placeholder line *and* a trailing blank line — two lines, not the single
line the claim requires. -/
theorem c5_placeholder_counterexample :
    getContributionGraphLines false 100 [] none false =
      ["    No contribution data yet".toList, []] ∧
    (getContributionGraphLines false 100 [] none false).length ≠ 1 := by
  refine ⟨by decide, by decide⟩

/-- C5 (amended): when the calendar is empty after trimming, all grid,
month-label and legend construction is skipped and the produced block is the
"no data" placeholder line followed by exactly one blank line (two lines in
total), for every colour setting, terminal width, width constraint and
section flag. -/
theorem c5_placeholder_amended (c : Bool) (tw : Int) (wc : Option Int)
    (b : Bool) :
    getContributionGraphLines c tw [] wc b =
      ["    ".toList ++
        (if c then
          "\x1b[2m".toList ++ "No contribution data yet".toList ++
            "\x1b[0m".toList
         else "No contribution data yet".toList), []] := by
  cases c <;> rfl

/-! ## C6: the legend line -/

/-- Trimming a nonempty calendar to a positive week limit leaves it
nonempty. -/
theorem getRecentWeeks_ne_nil (w : List Week) (n : Nat) (hn : 0 < n)
    (h : w ≠ []) : getRecentWeeks w n ≠ [] := by
  unfold getRecentWeeks
  split_ifs with hl
  · intro hc
    have hlen := congrArg List.length hc
    simp only [List.length_drop, List.length_nil] at hlen
    omega
  · exact h

/-- Last element of an append with a nonempty right part. -/
theorem getLastD_append_right {α : Type} (xs ys : List α) (d : α)
    (h : ys ≠ []) : (xs ++ ys).getLastD d = ys.getLastD d := by
  rw [List.getLastD_eq_getLast?, List.getLastD_eq_getLast?,
    List.getLast?_append]
  cases hy : ys.getLast? with
  | none =>
    exact absurd (List.getLast?_eq_none_iff.mp hy) h
  | some a => rfl

/-- C6 (counterexample): on a concrete nonempty one-week calendar, the block
produced by the grid builder does not contain the legend line of
`_build_legend_spaced` at all — in particular it does not end with it. -/
theorem c6_no_legend_counterexample :
    buildLegendSpaced false ∉
      getContributionGraphLines false 100 exampleSmallCalendar (some 200)
        false ∧
    getContributionGraphLines false 100 exampleSmallCalendar (some 200)
      false ≠ [] := by
  refine ⟨by decide, by decide⟩

/-- C6 (amended): the legend builders exist in the source but are never
invoked: for every nonempty calendar (and every colour setting, terminal
width and width constraint, with `include_sections` false as at every call
site) the block produced by the grid builder ends with the 7th weekday row,
not with a legend line. -/
theorem c6_last_line_amended (c : Bool) (tw : Int) (wc : Option Int)
    (w : List Week) (h : w ≠ []) :
    (getContributionGraphLines c tw w wc false).getLastD [] =
      dayRowLine c (displayWeeksFor tw wc (getRecentWeeks w 52)) 6 := by
  have hne := getRecentWeeks_ne_nil w 52 (by norm_num) h
  simp only [getContributionGraphLines]
  rw [if_neg hne]
  simp only [Bool.false_eq_true, if_false]
  have hmap : (List.range 7).map
      (fun idx =>
        dayRowLine c (displayWeeksFor tw wc (getRecentWeeks w 52)) idx) =
      (List.range 6).map
        (fun idx =>
          dayRowLine c (displayWeeksFor tw wc (getRecentWeeks w 52)) idx) ++
        [dayRowLine c (displayWeeksFor tw wc (getRecentWeeks w 52)) 6] := by
    rw [show (7 : Nat) = 6 + 1 from rfl, List.range_succ, List.map_append]
    rfl
  rw [hmap]
  rw [getLastD_append_right _ _ _ (by simp)]
  rw [getLastD_append_right _ _ _ (by simp)]
  rfl

/-- Witness for `c6_last_line_amended` on a concrete one-week calendar. -/
theorem c6_last_line_amended_witness :
    exampleSmallCalendar ≠ [] ∧
    (getContributionGraphLines false 100 exampleSmallCalendar (some 200)
        false).getLastD [] =
      dayRowLine false
        (displayWeeksFor 100 (some 200) (getRecentWeeks exampleSmallCalendar 52))
        6 :=
  ⟨by decide,
    c6_last_line_amended false 100 (some 200) exampleSmallCalendar (by decide)⟩

/-! ## C9: month-label placement -/

/-- Every valid month abbreviation is three characters long. -/
theorem monthAbbr_length (m : Nat) (h1 : 1 ≤ m) (h2 : m ≤ 12) :
    (monthAbbr m).length = 3 := by
  interval_cases m <;> rfl

/-- C9 (counterexample): with three January weeks followed by a February
week, the month change is at kept-week index 3, so the claim places `Feb` at
grid column 6 (overall index 10 behind the 4-column margin); the source
instead produces `"    Jan  Feb"`, whose `F` sits at grid column 5 (overall
index 9). -/
theorem c9_month_column_counterexample :
    buildMonthLineSpaced exampleMonthWeeks = "    Jan  Feb".toList ∧
    (buildMonthLineSpaced exampleMonthWeeks).getD 9 ' ' = 'F' ∧
    (buildMonthLineSpaced exampleMonthWeeks).getD 10 ' ' ≠ 'F' := by
  refine ⟨by decide, by decide, by decide⟩

/-- Walking any number of further weeks that stay in the starting month
leaves the accumulated line unchanged and only advances the index, until the
final week (in a different month) is processed. -/
theorem monthFold_same_month (m m2 : Nat) (c c2 : Int) :
    ∀ (j idx : Nat) (acc : List Char), idx ≠ 0 →
      monthFold (some [⟨some m, c⟩]) idx acc
        (List.replicate j [⟨some m, c⟩] ++ [[⟨some m2, c2⟩]]) =
      monthStep (some [⟨some m, c⟩]) (idx + j) acc [⟨some m2, c2⟩] := by
  intro j
  induction j with
  | zero =>
    intro idx acc h
    simp [monthFold]
  | succ j ih =>
    intro idx acc h
    rw [List.replicate_succ, List.cons_append, monthFold]
    have hstep : monthStep (some [⟨some m, c⟩]) idx acc [⟨some m, c⟩] = acc := by
      simp [monthStep, h]
    rw [hstep, ih (idx + 1) acc (Nat.succ_ne_zero idx)]
    have heq : idx + 1 + j = idx + (j + 1) := by omega
    rw [heq]

/-- C9 (amended): when week index `k + 1` starts a new month after `k + 1`
weeks of one month, the source pads the running line up to column
`(index + 1) * 2` minus the three-character abbreviation — so the
abbreviation *ends* at the next week's column and *starts* at grid column
`2 * index - 1`, one column left of the claimed `2 * index`.  The first kept
week emits its label unconditionally at column 0. -/
theorem c9_month_label_amended (m m2 : Nat) (c c2 : Int) (k : Nat)
    (hk : 1 ≤ k) (hm1 : 1 ≤ m) (hm2 : m ≤ 12) (hn1 : 1 ≤ m2)
    (hn2 : m2 ≤ 12) (hne : m ≠ m2) :
    buildMonthLineSpaced
        (List.replicate (k + 1) [⟨some m, c⟩] ++ [[⟨some m2, c2⟩]]) =
      "    ".toList ++ monthAbbr m ++ List.replicate (2 * k - 2) ' ' ++
        monthAbbr m2 := by
  unfold buildMonthLineSpaced
  rw [if_neg (by simp)]
  rw [List.replicate_succ, List.cons_append, monthFold]
  have h0 : monthStep none 0 [] [⟨some m, c⟩] = monthAbbr m := by
    simp [monthStep]
  rw [h0, monthFold_same_month m m2 c c2 k 1 (monthAbbr m) one_ne_zero]
  have habbr : (monthAbbr m).length = 3 := monthAbbr_length m hm1 hm2
  have habbr2 : (monthAbbr m2).length = 3 := monthAbbr_length m2 hn1 hn2
  simp only [monthStep, List.head?]
  rw [if_neg (by omega : ¬(1 + k = 0))]
  rw [if_pos (Ne.symm hne)]
  have hneed : ((((1 + k : Nat) : Int) + 1) * 2 - ((monthAbbr m).length : Int)) > 0 := by
    rw [habbr]; push_cast; omega
  rw [if_pos hneed]
  have hpad : ((((1 + k : Nat) : Int) + 1) * 2 - ((monthAbbr m).length : Int) -
      ((monthAbbr m2).length : Int)).toNat = 2 * k - 2 := by
    rw [habbr, habbr2]; push_cast; omega
  rw [hpad]
  simp [List.append_assoc]

/-- Witness for `c9_month_label_amended` with two leading January weeks and
a February week at index 3. -/
theorem c9_month_label_amended_witness :
    buildMonthLineSpaced
        (List.replicate 3 [⟨some 1, 0⟩] ++ [[⟨some 2, 0⟩]]) =
      "    ".toList ++ monthAbbr 1 ++ List.replicate 2 ' ' ++ monthAbbr 2 :=
  c9_month_label_amended 1 2 0 0 2 (by decide) (by decide) (by decide)
    (by decide) (by decide) (by decide)

/-! ## C7: truncation round-trip -/

/-- C7: `_truncate_text` returns its input unchanged whenever the input's
display width is at most the budget; in particular, truncating a string to
its own display width is the identity. -/
theorem c7_truncate_roundtrip (text : List Char) (budget : Int) :
    ((displayWidth text : Int) ≤ budget → truncateText text budget = text) ∧
    truncateText text (displayWidth text) = text := by
  constructor
  · intro h
    unfold truncateText
    rw [if_pos h]
  · unfold truncateText
    rw [if_pos le_rfl]

/-- Witness for `c7_truncate_roundtrip` on a concrete string and budget. -/
theorem c7_truncate_roundtrip_witness :
    truncateText "abc".toList 5 = "abc".toList ∧
    truncateText "abc".toList (displayWidth "abc".toList) = "abc".toList :=
  ⟨(c7_truncate_roundtrip "abc".toList 5).1 (by decide),
    (c7_truncate_roundtrip "abc".toList 5).2⟩

/-! ## C8: side-by-side composition of a 3-line and a 5-line block -/

/-- C8: composing a 3-line block beside a 5-line block yields exactly 5
lines; each of the first three rows is the left line padded with spaces to
the left block's maximum display width followed by the two-space gap and the
right line, and rows 4 and 5 carry only the right block's content behind a
blank left column. -/
theorem c8_side_by_side_three_five (L R : List (List Char))
    (hL : L.length = 3) (hR : R.length = 5) :
    (displayFullCombine L R).length = 5 ∧
    (∀ i, i < 3 →
      (displayFullCombine L R).getD i [] =
        L.getD i [] ++
          List.replicate (maxLineWidth L - displayWidth (L.getD i [])) ' ' ++
          "  ".toList ++ R.getD i []) ∧
    (∀ i, 3 ≤ i → i < 5 →
      (displayFullCombine L R).getD i [] =
        List.replicate (maxLineWidth L) ' ' ++ "  ".toList ++ R.getD i []) := by
  obtain ⟨a, b, c, rfl⟩ := List.length_eq_three.mp hL
  rcases R with _ | ⟨r0, _ | ⟨r1, _ | ⟨r2, _ | ⟨r3, _ | ⟨r4, _ | ⟨r5, R⟩⟩⟩⟩⟩⟩ <;>
    simp only [List.length_cons, List.length_nil] at hR <;> try omega
  refine ⟨rfl, ?_, ?_⟩
  · intro i hi
    interval_cases i <;> rfl
  · intro i h3 h5
    interval_cases i <;> rfl

/-- Witness for `c8_side_by_side_three_five` on concrete 3- and 5-line
blocks. -/
theorem c8_side_by_side_witness :
    (displayFullCombine [['a'], ['b', 'b'], ['c']]
      [['r'], ['s'], ['t'], ['u'], ['v']]).length = 5 :=
  (c8_side_by_side_three_five [['a'], ['b', 'b'], ['c']]
    [['r'], ['s'], ['t'], ['u'], ['v']] rfl rfl).1

/-! ## C10: the language progress bar -/

/-- Python round never goes below a non-negative argument's floor. -/
theorem pyRound_nonneg (q : ℚ) (h : 0 ≤ q) : 0 ≤ pyRound q := by
  simp only [pyRound]
  have hf : (0 : Int) ≤ ⌊q⌋ := Int.floor_nonneg.mpr h
  split_ifs <;> omega

/-- Python round of a value at most an integer stays at most that
integer. -/
theorem pyRound_le_intCast (q : ℚ) (W : Int) (h : q ≤ (W : ℚ)) :
    pyRound q ≤ W := by
  simp only [pyRound]
  have hf : ⌊q⌋ ≤ W := by
    have := Int.floor_le_floor h
    rwa [Int.floor_intCast] at this
  have hlt : ¬q - (⌊q⌋ : ℚ) < 1 / 2 → ⌊q⌋ < W := by
    intro hnot
    rcases eq_or_lt_of_le hf with hEq | hlt
    · exfalso
      have h12 : (1 : ℚ) / 2 ≤ q - ⌊q⌋ := le_of_not_lt hnot
      have hcast : (⌊q⌋ : ℚ) = (W : ℚ) := by exact_mod_cast hEq
      linarith
    · exact hlt
  split_ifs with h1 h2 h3
  · exact hf
  · have := hlt h1
    omega
  · exact hf
  · have := hlt h1
    omega

/-- C10: for every colour flag, (rational-modelled) percentage and requested
width, the progress bar holds exactly `round(clamped_pct / 100 * W)` filled
cells and `W - round(...)` empty cells, where `W` is the width clamped to at
least 1 and the percentage is clamped into [0, 100]; the round value already
lies in [0, W], so the total cell count is always exactly `W`, whatever the
input percentage. -/
theorem c10_progress_bar_cells (c : Bool) (p : ℚ) (w : Int) :
    0 ≤ pyRound (max 0 (min p 100) / 100 * ((max w 1 : Int) : ℚ)) ∧
    pyRound (max 0 (min p 100) / 100 * ((max w 1 : Int) : ℚ)) ≤ max w 1 ∧
    (renderProgressBarNoBrackets c p w).count '█' =
      (pyRound (max 0 (min p 100) / 100 * ((max w 1 : Int) : ℚ))).toNat ∧
    (renderProgressBarNoBrackets c p w).count '░' =
      (max w 1 -
        pyRound (max 0 (min p 100) / 100 * ((max w 1 : Int) : ℚ))).toNat ∧
    (pyRound (max 0 (min p 100) / 100 * ((max w 1 : Int) : ℚ))).toNat +
      (max w 1 -
        pyRound (max 0 (min p 100) / 100 * ((max w 1 : Int) : ℚ))).toNat =
      (max w 1).toNat := by
  have hW1 : (1 : Int) ≤ max w 1 := le_max_right _ _
  have hWq : (0 : ℚ) ≤ ((max w 1 : Int) : ℚ) := by
    exact_mod_cast le_trans (by norm_num) hW1
  have hc0 : (0 : ℚ) ≤ max 0 (min p 100) := le_max_left _ _
  have hc100 : max 0 (min p 100) ≤ 100 :=
    max_le (by norm_num) (min_le_right _ _)
  have hq0 : (0 : ℚ) ≤ max 0 (min p 100) / 100 * ((max w 1 : Int) : ℚ) :=
    mul_nonneg (div_nonneg hc0 (by norm_num)) hWq
  have hqW : max 0 (min p 100) / 100 * ((max w 1 : Int) : ℚ) ≤
      ((max w 1 : Int) : ℚ) := by
    have hone : max 0 (min p 100) / 100 ≤ 1 :=
      (div_le_one (by norm_num)).mpr hc100
    calc max 0 (min p 100) / 100 * ((max w 1 : Int) : ℚ) ≤
        1 * ((max w 1 : Int) : ℚ) := mul_le_mul_of_nonneg_right hone hWq
      _ = ((max w 1 : Int) : ℚ) := one_mul _
  have hR0 := pyRound_nonneg _ hq0
  have hRW := pyRound_le_intCast _ (max w 1) hqW
  have hbar : renderProgressBarNoBrackets c p w =
      (if c ∧ List.replicate
          (pyRound (max 0 (min p 100) / 100 *
            ((max w 1 : Int) : ℚ))).toNat '█' ≠ [] then
        colorize c
          (List.replicate
            (pyRound (max 0 (min p 100) / 100 *
              ((max w 1 : Int) : ℚ))).toNat '█') "green".toList
       else
        List.replicate
          (pyRound (max 0 (min p 100) / 100 *
            ((max w 1 : Int) : ℚ))).toNat '█') ++
      List.replicate
        (max w 1 -
          pyRound (max 0 (min p 100) / 100 * ((max w 1 : Int) : ℚ))).toNat
        '░' := by
    simp only [renderProgressBarNoBrackets]
    rw [min_eq_left hRW]
  have hgreenbar : ∀ m : Nat,
      colorize true (List.replicate (m + 1) '█') "green".toList =
        "\x1b[92m".toList ++ List.replicate (m + 1) '█' ++
          "\x1b[0m".toList := fun m => rfl
  have hrep : ∀ n : Nat, (List.replicate n '█').count '█' = n := by
    intro n
    simp [List.count_replicate]
  have hrepShade : ∀ n : Nat, (List.replicate n '░').count '░' = n := by
    intro n
    simp [List.count_replicate]
  have hrepMix : ∀ n : Nat, (List.replicate n '░').count '█' = 0 := by
    intro n
    simp [List.count_replicate]
  have hrepMix2 : ∀ n : Nat, (List.replicate n '█').count '░' = 0 := by
    intro n
    simp [List.count_replicate]
  refine ⟨hR0, hRW, ?_, ?_, by omega⟩
  · rw [hbar, List.count_append, hrepMix]
    split_ifs with hcol
    · rcases hcol with ⟨hc, hne⟩
      subst hc
      have hn0 :
          (pyRound (max 0 (min p 100) / 100 *
            ((max w 1 : Int) : ℚ))).toNat ≠ 0 := by
        intro h0
        rw [h0] at hne
        exact hne rfl
      obtain ⟨k, hk⟩ := Nat.exists_eq_succ_of_ne_zero hn0
      rw [hk, hgreenbar, List.count_append, List.count_append, hrep]
      have hA : List.count '█' "\x1b[92m".toList = 0 := by decide
      have hB : List.count '█' "\x1b[0m".toList = 0 := by decide
      rw [hA, hB]
      omega
    · rw [hrep]
      omega
  · rw [hbar, List.count_append, hrepShade]
    split_ifs with hcol
    · rcases hcol with ⟨hc, hne⟩
      subst hc
      have hn0 :
          (pyRound (max 0 (min p 100) / 100 *
            ((max w 1 : Int) : ℚ))).toNat ≠ 0 := by
        intro h0
        rw [h0] at hne
        exact hne rfl
      obtain ⟨k, hk⟩ := Nat.exists_eq_succ_of_ne_zero hn0
      rw [hk, hgreenbar, List.count_append, List.count_append, hrepMix2]
      have hA : List.count '░' "\x1b[92m".toList = 0 := by decide
      have hB : List.count '░' "\x1b[0m".toList = 0 := by decide
      rw [hA, hB]
      omega
    · rw [hrepMix2]
      omega

end Gitfetch
